import Mathlib

/-!
Verification of the typed_tuple library's tuple algebra.

The library is a compile-time verified algebra over fixed-length heterogeneous
tuples.  Its code generator materializes, for every supported tuple size and
position, implementations that move tuple fields positionally: the field types
never influence which fields go where.  We therefore embed a tuple as a Lean
`List α` (the field values in order) and each generated operation family as an
`Option`-valued function whose `some`-domain is exactly the set of
(size, position) pairs the generator emits, and whose result is the positional
rearrangement the generated code performs.

Source correspondence:
 - `MAX_SIZE` mirrors the generator constant (64 without the len_128 feature).
 - `tupleIndexAdd`, `tupleIndexSub`, `tupleIndexSaturatingSub` mirror
   generate_index_add_impls / generate_index_sub_impls /
   generate_index_saturating_sub_impls in typed_tuple_macros/src/lib.rs.
 - `chain_right` mirrors generate_chain_right_impls.
 - `split_exclusive` mirrors the TypedBounds::split_exclusive_at bodies from
   generate_typed_tuple_impls.
 - `pop`, `split_left`, `split_right` mirror the default method bodies in
   src/typed_tuple.rs, which compose split_exclusive with chaining.
 - `swap` mirrors TypedTuple::swap in src/typed_tuple.rs.
 - `extract` mirrors impl_typed_extract in typed_tuple_macros/src/typed_extract.rs.
-/

namespace TypedTupleModel

/-- Maximum supported tuple size: the default tier (no len_128 feature),
from `const MAX_SIZE: usize = 64` in typed_tuple_macros/src/lib.rs. -/
def MAX_SIZE : Nat := 64

/-- Upper bound on the tuple arity for which TypedExtract implementations are
generated: the driver invokes the generator with argument 12
(src/src/typed_extract.rs). -/
def EXTRACT_MAX : Nat := 12

/-- Embedding of generate_index_add_impls: an impl of
`TupleIndexAdd<right> for left` exists for each pair produced by the loops
`left in 0..MAX_SIZE`, `right in 0..MAX_SIZE` with the pairs where
`sum >= MAX_SIZE` skipped, and its Output marker carries `left + right`. -/
def tupleIndexAdd (a b : Nat) : Option Nat :=
  if a < MAX_SIZE ∧ b < MAX_SIZE ∧ a + b < MAX_SIZE then some (a + b) else none

/-- Embedding of generate_index_sub_impls: an impl of
`TupleIndexSub<right> for left` exists for each pair produced by the loops
`left in 0..MAX_SIZE`, `right in 0..=left`, and its Output marker carries
`left - right`. -/
def tupleIndexSub (a b : Nat) : Option Nat :=
  if a < MAX_SIZE ∧ b ≤ a then some (a - b) else none

/-- Embedding of generate_index_saturating_sub_impls: an impl of
`TupleIndexSaturatingSub<right> for left` exists for every pair produced by the
loops `left in 0..MAX_SIZE`, `right in 0..MAX_SIZE`, and its Output marker
carries `if left >= right { left - right } else { 0 }`. -/
def tupleIndexSaturatingSub (a b : Nat) : Option Nat :=
  if a < MAX_SIZE ∧ b < MAX_SIZE then some (if b ≤ a then a - b else 0) else none

/-- Embedding of generate_chain_right_impls: an impl of
`ChainRight<right_tuple> for left_tuple` exists for each size pair produced by
the loops `left_size in 0..=MAX_SIZE`, `right_size in 0..=MAX_SIZE` with pairs
where `total_size > MAX_SIZE` skipped; `chain_right` returns the fields of
`self` in order followed by the fields of `right` in order. -/
def chain_right {α : Type} (a b : List α) : Option (List α) :=
  if a.length ≤ MAX_SIZE ∧ b.length ≤ MAX_SIZE ∧ a.length + b.length ≤ MAX_SIZE then
    some (a ++ b)
  else none

/-- Modelled from the spec: the `ChainLeft` trait declaration and its generated
implementations are missing from the source tree (only trait bounds and call
sites such as `right_exclusive.chain_left((element,))` remain).  Per the spec,
chain is concatenation of two Sequences preserving left-then-right order, and
`chain((element,), right_exclusive) == right_inclusive`, so `a.chain_left(b)`
concatenates `b` before `a`.  Definedness mirrors `chain_right`. -/
def chain_left {α : Type} (a b : List α) : Option (List α) :=
  if a.length ≤ MAX_SIZE ∧ b.length ≤ MAX_SIZE ∧ a.length + b.length ≤ MAX_SIZE then
    some (b ++ a)
  else none

/-- Embedding of the TypedBounds impls from generate_typed_tuple_impls: for
each `size in 1..=MAX_SIZE` and `index in 0..size`, `split_exclusive_at`
returns `((self.0, .., self.(index-1)), self.index, (self.(index+1), ..,
self.(size-1)))`, i.e. the first `index` fields, the field at `index`, and the
fields after `index`. -/
def split_exclusive {α : Type} (s : List α) (i : Nat) : Option (List α × α × List α) :=
  if h : s.length ≤ MAX_SIZE ∧ i < s.length then
    some (s.take i, s.get ⟨i, h.2⟩, s.drop (i + 1))
  else none

/-- Embedding of TypedTuple::pop (src/typed_tuple.rs): split exclusively, then
chain the left part onto the right part. -/
def pop {α : Type} (s : List α) (i : Nat) : Option (α × List α) :=
  match split_exclusive s i with
  | some (l, e, r) =>
    match chain_right l r with
    | some rem => some (e, rem)
    | none => none
  | none => none

/-- Embedding of TypedTuple::split_left (src/typed_tuple.rs): split
exclusively, then chain the pivot element onto the right of the left part. -/
def split_left {α : Type} (s : List α) (i : Nat) : Option (List α × List α) :=
  match split_exclusive s i with
  | some (l, e, r) =>
    match chain_right l [e] with
    | some li => some (li, r)
    | none => none
  | none => none

/-- Embedding of TypedTuple::split_right (src/typed_tuple.rs): split
exclusively, then chain the pivot element onto the left of the right part. -/
def split_right {α : Type} (s : List α) (i : Nat) : Option (List α × List α) :=
  match split_exclusive s i with
  | some (l, e, r) =>
    match chain_left r [e] with
    | some ri => some (l, ri)
    | none => none
  | none => none

/-- Embedding of TypedTuple::swap (src/typed_tuple.rs): when the two index
markers differ, exchange the two fields via mem::swap (each field receives the
other's previous value); when they are equal, do nothing. -/
def swap {α : Type} (s : List α) (a b : Nat) : Option (List α) :=
  if h : s.length ≤ MAX_SIZE ∧ a < s.length ∧ b < s.length then
    if a = b then some s
    else some ((s.set a (s.get ⟨b, h.2.2⟩)).set b (s.get ⟨a, h.2.1⟩))
  else none

/-- Embedding of impl_typed_extract (typed_tuple_macros/src/typed_extract.rs):
for an arity-`n` tuple the generator loops `i in 0..n` and `j in i..=n` and
emits, for each such pair, an impl whose extract returns the fields at
positions `i..j` in order, i.e. `(self.i, .., self.(j-1))`. -/
def extract {α : Type} (s : List α) (start stop : Nat) : Option (List α) :=
  if s.length ≤ EXTRACT_MAX ∧ start < s.length ∧ start ≤ stop ∧ stop ≤ s.length then
    some ((s.drop start).take (stop - start))
  else none

/-- Concrete heterogeneous element values used in the spec's scenarios. -/
inductive Elem where
  | u8 (v : Nat)
  | u16 (v : Nat)
  | u32 (v : Nat)
  | u64 (v : Nat)
  | u128 (v : Nat)
  | i8 (v : Int)
deriving DecidableEq

/-- The spec's Scenario 1 tuple `(1u8, 2u16, 3u32, 4u64, 5i8)`. -/
def scenario1 : List Elem :=
  [Elem.u8 1, Elem.u16 2, Elem.u32 3, Elem.u64 4, Elem.i8 5]

/-- The spec's Scenario 2 tuple `(1u8, 2u16, 3u32)`. -/
def scenario2 : List Elem :=
  [Elem.u8 1, Elem.u16 2, Elem.u32 3]

/-- The spec's Scenario 4 tuple `(0u8, 1u16, 2u32, 3u64, 4u128, 5u8, 6u16, 7u32)`. -/
def scenario4 : List Elem :=
  [Elem.u8 0, Elem.u16 1, Elem.u32 2, Elem.u64 3, Elem.u128 4,
   Elem.u8 5, Elem.u16 6, Elem.u32 7]

/-! Helper lemmas shared between the claim theorems. -/

/-- Characterization of the defined case of `split_exclusive`. -/
theorem split_exclusive_eq_some {α : Type} (s : List α) (i : Nat)
    (hmax : s.length ≤ MAX_SIZE) (hi : i < s.length) :
    split_exclusive s i = some (s.take i, s.get ⟨i, hi⟩, s.drop (i + 1)) := by
  unfold split_exclusive
  rw [dif_pos ⟨hmax, hi⟩]

/-- Characterization of the defined case of `chain_right`. -/
theorem chain_right_eq_some {α : Type} (a b : List α)
    (h : a.length + b.length ≤ MAX_SIZE) :
    chain_right a b = some (a ++ b) := by
  unfold chain_right
  rw [if_pos ⟨by omega, by omega, h⟩]

/-- Characterization of the defined case of `chain_left`. -/
theorem chain_left_eq_some {α : Type} (a b : List α)
    (h : a.length + b.length ≤ MAX_SIZE) :
    chain_left a b = some (b ++ a) := by
  unfold chain_left
  rw [if_pos ⟨by omega, by omega, h⟩]

/-- Reassembling the three parts of an exclusive split gives back the list. -/
theorem take_get_drop {α : Type} (s : List α) (i : Nat) (hi : i < s.length) :
    s.take i ++ s.get ⟨i, hi⟩ :: s.drop (i + 1) = s := by
  rw [List.get_eq_getElem, List.getElem_cons_drop, List.take_append_drop]

/-- Characterization of the defined case of `split_left`. -/
theorem split_left_eq_some {α : Type} (s : List α) (p : Nat)
    (hmax : s.length ≤ MAX_SIZE) (hp : p < s.length) :
    split_left s p = some (s.take p ++ [s.get ⟨p, hp⟩], s.drop (p + 1)) := by
  have h2 : chain_right (s.take p) [s.get ⟨p, hp⟩]
      = some (s.take p ++ [s.get ⟨p, hp⟩]) := by
    apply chain_right_eq_some
    rw [List.length_take]
    simp only [List.length_cons, List.length_nil]
    omega
  unfold split_left
  simp only [split_exclusive_eq_some s p hmax hp, h2]

/-- Characterization of the defined case of `split_right`. -/
theorem split_right_eq_some {α : Type} (s : List α) (p : Nat)
    (hmax : s.length ≤ MAX_SIZE) (hp : p < s.length) :
    split_right s p = some (s.take p, s.get ⟨p, hp⟩ :: s.drop (p + 1)) := by
  have h2 : chain_left (s.drop (p + 1)) [s.get ⟨p, hp⟩]
      = some ([s.get ⟨p, hp⟩] ++ s.drop (p + 1)) := by
    apply chain_left_eq_some
    rw [List.length_drop]
    simp only [List.length_cons, List.length_nil]
    omega
  unfold split_right
  simp only [split_exclusive_eq_some s p hmax hp, h2, List.singleton_append]

/-- Characterization of the defined case of `pop`. -/
theorem pop_eq_some {α : Type} (s : List α) (p : Nat)
    (hmax : s.length ≤ MAX_SIZE) (hp : p < s.length) :
    pop s p = some (s.get ⟨p, hp⟩, s.take p ++ s.drop (p + 1)) := by
  have h2 : chain_right (s.take p) (s.drop (p + 1))
      = some (s.take p ++ s.drop (p + 1)) := by
    apply chain_right_eq_some
    rw [List.length_take, List.length_drop]
    omega
  unfold pop
  simp only [split_exclusive_eq_some s p hmax hp, h2]

/-! Claim theorems. -/

/-- C1: for every tuple S of a supported length L and every position p < L,
split_exclusive at p returns (left, element, right) with left the elements of
S at positions [0, p) in order, element the element of S at position p, and
right the elements of S at positions (p, L-1] in order; splitting a
single-element tuple at position 0 yields empty left and empty right. -/
theorem C1_split_exclusive_spec {α : Type} (s : List α) (p : Nat)
    (hmax : s.length ≤ MAX_SIZE) (hp : p < s.length) :
    ∃ l e r, split_exclusive s p = some (l, e, r) ∧
      l.length = p ∧
      (∀ j, j < p → l[j]? = s[j]?) ∧
      s[p]? = some e ∧
      r.length = s.length - (p + 1) ∧
      (∀ j, r[j]? = s[p + 1 + j]?) ∧
      (s.length = 1 → l = [] ∧ r = []) := by
  refine ⟨s.take p, s.get ⟨p, hp⟩, s.drop (p + 1),
    split_exclusive_eq_some s p hmax hp, ?_, ?_, ?_, ?_, ?_, ?_⟩
  · rw [List.length_take]
    omega
  · intro j hj
    exact List.getElem?_take_of_lt hj
  · rw [List.getElem?_eq_getElem hp, List.get_eq_getElem]
  · rw [List.length_drop]
  · intro j
    exact List.getElem?_drop s (p + 1) j
  · intro hone
    have hp0 : p = 0 := by omega
    subst hp0
    refine ⟨List.take_zero s, ?_⟩
    rw [List.drop_eq_nil_of_le (by omega)]

/-- C1 witness: Scenario 1, splitting `(1u8, 2u16, 3u32, 4u64, 5i8)` at
position 2. -/
theorem C1_split_exclusive_spec_witness :
    (scenario1.length ≤ MAX_SIZE ∧ 2 < scenario1.length) ∧
    ∃ l e r, split_exclusive scenario1 2 = some (l, e, r) ∧
      l.length = 2 ∧
      (∀ j, j < 2 → l[j]? = scenario1[j]?) ∧
      scenario1[2]? = some e ∧
      r.length = scenario1.length - (2 + 1) ∧
      (∀ j, r[j]? = scenario1[2 + 1 + j]?) ∧
      (scenario1.length = 1 → l = [] ∧ r = []) :=
  ⟨⟨by decide, by decide⟩, C1_split_exclusive_spec scenario1 2 (by decide) (by decide)⟩

/-- C4: saturating subtraction is total over positions and matches the
reference definition: defined for all a, b in [0, MAX_SIZE), equal to a - b
when a >= b and 0 otherwise. -/
theorem C4_saturating_sub_total (a b : Nat)
    (ha : a < MAX_SIZE) (hb : b < MAX_SIZE) :
    ∃ c, tupleIndexSaturatingSub a b = some c ∧
      (b ≤ a → c = a - b) ∧ (a < b → c = 0) := by
  refine ⟨if b ≤ a then a - b else 0, ?_, ?_, ?_⟩
  · unfold tupleIndexSaturatingSub
    rw [if_pos ⟨ha, hb⟩]
  · intro h
    rw [if_pos h]
  · intro h
    rw [if_neg (by omega)]

/-- C4 witness: Scenario 3's saturating half, SaturatingSub(2, 10) is defined
and equals 0. -/
theorem C4_saturating_sub_total_witness :
    ((2 : Nat) < MAX_SIZE ∧ (10 : Nat) < MAX_SIZE) ∧
    ∃ c, tupleIndexSaturatingSub 2 10 = some c ∧
      ((10 : Nat) ≤ 2 → c = 2 - 10) ∧ ((2 : Nat) < 10 → c = 0) :=
  ⟨⟨by decide, by decide⟩, C4_saturating_sub_total 2 10 (by decide) (by decide)⟩

/-- C5: regular position subtraction is defined exactly for pairs with
a >= b, where it equals a - b; for b > a no implementation exists. -/
theorem C5_sub_partial (a b : Nat)
    (ha : a < MAX_SIZE) (_hb : b < MAX_SIZE) :
    (b ≤ a → tupleIndexSub a b = some (a - b)) ∧
    (a < b → tupleIndexSub a b = none) := by
  constructor
  · intro h
    unfold tupleIndexSub
    rw [if_pos ⟨ha, h⟩]
  · intro h
    unfold tupleIndexSub
    rw [if_neg (by omega)]

/-- C5 witness: Scenario 3's regular half, Sub(2, 10) is absent. -/
theorem C5_sub_partial_witness :
    ((2 : Nat) < MAX_SIZE ∧ (10 : Nat) < MAX_SIZE) ∧
    (((10 : Nat) ≤ 2 → tupleIndexSub 2 10 = some (2 - 10)) ∧
     ((2 : Nat) < 10 → tupleIndexSub 2 10 = none)) :=
  ⟨⟨by decide, by decide⟩, C5_sub_partial 2 10 (by decide) (by decide)⟩

/-- C9: position arithmetic identity laws for every position p in
[0, MAX_SIZE): p + 0 = p, p - p = 0 and p - 0 = p. -/
theorem C9_index_identities (p : Nat) (hp : p < MAX_SIZE) :
    tupleIndexAdd p 0 = some p ∧
    tupleIndexSub p p = some 0 ∧
    tupleIndexSub p 0 = some p := by
  refine ⟨?_, ?_, ?_⟩
  · unfold tupleIndexAdd
    rw [if_pos ⟨hp, by unfold MAX_SIZE; omega, by omega⟩, Nat.add_zero]
  · unfold tupleIndexSub
    rw [if_pos ⟨hp, Nat.le_refl p⟩, Nat.sub_self]
  · unfold tupleIndexSub
    rw [if_pos ⟨hp, Nat.zero_le p⟩, Nat.sub_zero]

/-- C9 witness: the identities at position 5. -/
theorem C9_index_identities_witness :
    ((5 : Nat) < MAX_SIZE) ∧
    (tupleIndexAdd 5 0 = some 5 ∧
     tupleIndexSub 5 5 = some 0 ∧
     tupleIndexSub 5 0 = some 5) :=
  ⟨by decide, C9_index_identities 5 (by decide)⟩

/-- C10: the empty tuple is a two-sided identity for chain_right: for every
tuple t of a supported length, chaining the empty tuple on either side is
defined and returns t. -/
theorem C10_chain_empty_identity {α : Type} (t : List α)
    (h : t.length ≤ MAX_SIZE) :
    chain_right ([] : List α) t = some t ∧ chain_right t ([] : List α) = some t := by
  constructor
  · rw [chain_right_eq_some ([] : List α) t (by simpa using h)]
    rw [List.nil_append]
  · rw [chain_right_eq_some t ([] : List α) (by simpa using h)]
    rw [List.append_nil]

/-- C10 witness: the empty tuple is an identity around `(1u8,)`. -/
theorem C10_chain_empty_identity_witness :
    ([Elem.u8 1].length ≤ MAX_SIZE) ∧
    (chain_right ([] : List Elem) [Elem.u8 1] = some [Elem.u8 1] ∧
     chain_right [Elem.u8 1] ([] : List Elem) = some [Elem.u8 1]) :=
  ⟨by decide, C10_chain_empty_identity [Elem.u8 1] (by decide)⟩

/-- C2: the decomposition round-trips through chain: chaining the exclusive
left part with the pivot element gives split_left's left part, chaining
split_left's two parts reconstructs S, and chaining the parts returned by
split_right likewise reconstructs S. -/
theorem C2_split_roundtrip {α : Type} (s : List α) (p : Nat)
    (hmax : s.length ≤ MAX_SIZE) (hp : p < s.length) :
    ∃ l e r li ri,
      split_exclusive s p = some (l, e, r) ∧
      split_left s p = some (li, r) ∧
      split_right s p = some (l, ri) ∧
      chain_right l [e] = some li ∧
      chain_right li r = some s ∧
      chain_right l ri = some s := by
  have hlt : (s.take p).length = p := by
    rw [List.length_take]; omega
  have hld : (s.drop (p + 1)).length = s.length - (p + 1) := List.length_drop _ _
  refine ⟨s.take p, s.get ⟨p, hp⟩, s.drop (p + 1),
    s.take p ++ [s.get ⟨p, hp⟩], s.get ⟨p, hp⟩ :: s.drop (p + 1),
    split_exclusive_eq_some s p hmax hp,
    split_left_eq_some s p hmax hp,
    split_right_eq_some s p hmax hp, ?_, ?_, ?_⟩
  · apply chain_right_eq_some
    simp only [List.length_cons, List.length_nil]
    omega
  · rw [chain_right_eq_some _ _ (by
      simp only [List.length_append, List.length_cons, List.length_nil]
      omega)]
    rw [List.append_assoc, List.singleton_append, take_get_drop s p hp]
  · rw [chain_right_eq_some _ _ (by
      simp only [List.length_cons]
      omega)]
    rw [take_get_drop s p hp]

/-- C2 witness: the round-trip at Scenario 1's tuple, position 2. -/
theorem C2_split_roundtrip_witness :
    (scenario1.length ≤ MAX_SIZE ∧ 2 < scenario1.length) ∧
    ∃ l e r li ri,
      split_exclusive scenario1 2 = some (l, e, r) ∧
      split_left scenario1 2 = some (li, r) ∧
      split_right scenario1 2 = some (l, ri) ∧
      chain_right l [e] = some li ∧
      chain_right li r = some scenario1 ∧
      chain_right l ri = some scenario1 :=
  ⟨⟨by decide, by decide⟩, C2_split_roundtrip scenario1 2 (by decide) (by decide)⟩

/-- C3: pop(p) returns exactly the pair of the exclusive split's element and
the chaining of its left and right parts, and the remainder has length
L - 1. -/
theorem C3_pop_spec {α : Type} (s : List α) (p : Nat)
    (hmax : s.length ≤ MAX_SIZE) (hp : p < s.length) :
    ∃ l e r rem,
      split_exclusive s p = some (l, e, r) ∧
      chain_right l r = some rem ∧
      pop s p = some (e, rem) ∧
      rem.length = s.length - 1 := by
  refine ⟨s.take p, s.get ⟨p, hp⟩, s.drop (p + 1), s.take p ++ s.drop (p + 1),
    split_exclusive_eq_some s p hmax hp, ?_,
    pop_eq_some s p hmax hp, ?_⟩
  · apply chain_right_eq_some
    rw [List.length_take, List.length_drop]
    omega
  · rw [List.length_append, List.length_take, List.length_drop]
    omega

/-- C3 witness: Scenario 2, popping `(1u8, 2u16, 3u32)` at position 1 gives
`(2u16, (1u8, 3u32))`. -/
theorem C3_pop_spec_witness :
    (scenario2.length ≤ MAX_SIZE ∧ 1 < scenario2.length) ∧
    ∃ l e r rem,
      split_exclusive scenario2 1 = some (l, e, r) ∧
      chain_right l r = some rem ∧
      pop scenario2 1 = some (e, rem) ∧
      rem.length = scenario2.length - 1 :=
  ⟨⟨by decide, by decide⟩, C3_pop_spec scenario2 1 (by decide) (by decide)⟩

/-- C6: chain is a total, order-preserving concatenation: for every pair of
tuples whose lengths sum within MAX_SIZE (empty tuples included), chain_right
is defined and returns the tuple of length La + Lb holding the elements of
`a` in order followed by the elements of `b` in order. -/
theorem C6_chain_right_spec {α : Type} (a b : List α)
    (h : a.length + b.length ≤ MAX_SIZE) :
    ∃ cs, chain_right a b = some cs ∧
      cs.length = a.length + b.length ∧
      (∀ j, j < a.length → cs[j]? = a[j]?) ∧
      (∀ j, cs[a.length + j]? = b[j]?) := by
  refine ⟨a ++ b, chain_right_eq_some a b h, List.length_append a b, ?_, ?_⟩
  · intro j hj
    exact List.getElem?_append_left hj
  · intro j
    rw [List.getElem?_append_right (Nat.le_add_right _ _)]
    congr 1
    omega

/-- C6 witness: chaining `(1u8, 2u16)` with `(3u32,)`. -/
theorem C6_chain_right_spec_witness :
    ([Elem.u8 1, Elem.u16 2].length + [Elem.u32 3].length ≤ MAX_SIZE) ∧
    ∃ cs, chain_right [Elem.u8 1, Elem.u16 2] [Elem.u32 3] = some cs ∧
      cs.length = [Elem.u8 1, Elem.u16 2].length + [Elem.u32 3].length ∧
      (∀ j, j < [Elem.u8 1, Elem.u16 2].length →
        cs[j]? = [Elem.u8 1, Elem.u16 2][j]?) ∧
      (∀ j, cs[[Elem.u8 1, Elem.u16 2].length + j]? = [Elem.u32 3][j]?) :=
  ⟨by decide, C6_chain_right_spec [Elem.u8 1, Elem.u16 2] [Elem.u32 3] (by decide)⟩

/-- C7 counterexample: the claim quantifies over every range with
start ≤ end ≤ L, but the generator loops `i in 0..n` so no implementation
exists for start = end = L; at the single-element tuple with start = end = 1
the bounds start ≤ end ≤ L hold yet extract is undefined. -/
theorem C7_extract_counterexample :
    (1 : Nat) ≤ 1 ∧ (1 : Nat) ≤ [Elem.u8 0].length ∧
    extract [Elem.u8 0] 1 1 = none := by decide

/-- C7 (amended): for every tuple of a supported length L and every explicit
range [start, end) with start < L and start ≤ end ≤ L, extract returns the
tuple of length end - start whose elements are the source elements at
positions start..end in order; extracting the full range [0, L) returns the
tuple unchanged. -/
theorem C7_extract_spec {α : Type} (s : List α) (start stop : Nat)
    (hmax : s.length ≤ EXTRACT_MAX) (h1 : start < s.length)
    (h2 : start ≤ stop) (h3 : stop ≤ s.length) :
    ∃ t, extract s start stop = some t ∧
      t.length = stop - start ∧
      (∀ j, j < stop - start → t[j]? = s[start + j]?) ∧
      (start = 0 → stop = s.length → t = s) := by
  refine ⟨(s.drop start).take (stop - start), ?_, ?_, ?_, ?_⟩
  · unfold extract
    rw [if_pos ⟨hmax, h1, h2, h3⟩]
  · rw [List.length_take, List.length_drop]
    omega
  · intro j hj
    rw [List.getElem?_take_of_lt hj, List.getElem?_drop]
  · intro h0 hL
    subst h0
    subst hL
    rw [List.drop_zero, Nat.sub_zero, List.take_length]

/-- C7 witness: Scenario 4, extracting range [1, 4) from
`(0u8, 1u16, 2u32, 3u64, 4u128, 5u8, 6u16, 7u32)`. -/
theorem C7_extract_spec_witness :
    (scenario4.length ≤ EXTRACT_MAX ∧ 1 < scenario4.length ∧
     (1 : Nat) ≤ 4 ∧ 4 ≤ scenario4.length) ∧
    ∃ t, extract scenario4 1 4 = some t ∧
      t.length = 4 - 1 ∧
      (∀ j, j < 4 - 1 → t[j]? = scenario4[1 + j]?) ∧
      ((1 : Nat) = 0 → (4 : Nat) = scenario4.length → t = scenario4) :=
  ⟨⟨by decide, by decide, by decide, by decide⟩,
   C7_extract_spec scenario4 1 4 (by decide) (by decide) (by decide) (by decide)⟩

/-- C8: swap is an involution and the identity on equal positions: performing
swap(a, b) twice restores the tuple, and swap(a, a) leaves it unchanged. -/
theorem C8_swap_involution {α : Type} (s : List α) (a b : Nat)
    (hmax : s.length ≤ MAX_SIZE) (ha : a < s.length) (hb : b < s.length) :
    ∃ t, swap s a b = some t ∧ swap t a b = some s ∧ (a = b → t = s) := by
  by_cases hab : a = b
  · refine ⟨s, ?_, ?_, fun _ => rfl⟩ <;>
      (unfold swap; rw [dif_pos ⟨hmax, ha, hb⟩, if_pos hab])
  · set va := s.get ⟨a, ha⟩ with hva
    set vb := s.get ⟨b, hb⟩ with hvb
    refine ⟨(s.set a vb).set b va, ?_, ?_, fun h => absurd h hab⟩
    · unfold swap
      rw [dif_pos ⟨hmax, ha, hb⟩, if_neg hab]
    · have hs1 : (s.set a vb).length = s.length := by
        rw [List.length_set]
      have hlen : ((s.set a vb).set b va).length = s.length := by
        rw [List.length_set, hs1]
      have hta : ((s.set a vb).set b va).get ⟨a, by omega⟩ = vb := by
        simp only [List.get_eq_getElem]
        rw [List.getElem_set_ne (by omega) (by omega)]
        rw [List.getElem_set_self (by omega)]
      have htb : ((s.set a vb).set b va).get ⟨b, by omega⟩ = va := by
        simp only [List.get_eq_getElem]
        rw [List.getElem_set_self (by omega)]
      unfold swap
      rw [dif_pos ⟨by omega, by omega, by omega⟩, if_neg hab]
      rw [hta, htb]
      congr 1
      apply List.ext_getElem?
      intro n
      by_cases hnb : n = b
      · subst hnb
        rw [List.getElem?_set_self (by rw [List.length_set]; omega)]
        rw [List.getElem?_eq_getElem hb, hvb, List.get_eq_getElem]
      · rw [List.getElem?_set_ne (Ne.symm hnb)]
        by_cases hna : n = a
        · subst hna
          rw [List.getElem?_set_self (by omega)]
          rw [List.getElem?_eq_getElem ha, hva, List.get_eq_getElem]
        · rw [List.getElem?_set_ne (Ne.symm hna)]
          rw [List.getElem?_set_ne (Ne.symm hnb), List.getElem?_set_ne (Ne.symm hna)]

/-- C8 witness: swapping positions 0 and 2 of `(1u32, 9u8, 2u32)` twice, after
applying the theorem at that input. -/
theorem C8_swap_involution_witness :
    ([Elem.u32 1, Elem.u8 9, Elem.u32 2].length ≤ MAX_SIZE ∧
     0 < [Elem.u32 1, Elem.u8 9, Elem.u32 2].length ∧
     2 < [Elem.u32 1, Elem.u8 9, Elem.u32 2].length) ∧
    ∃ t, swap [Elem.u32 1, Elem.u8 9, Elem.u32 2] 0 2 = some t ∧
      swap t 0 2 = some [Elem.u32 1, Elem.u8 9, Elem.u32 2] ∧
      ((0 : Nat) = 2 → t = [Elem.u32 1, Elem.u8 9, Elem.u32 2]) :=
  ⟨⟨by decide, by decide, by decide⟩,
   C8_swap_involution [Elem.u32 1, Elem.u8 9, Elem.u32 2] 0 2
     (by decide) (by decide) (by decide)⟩

end TypedTupleModel
